import Mathlib

/-
Verification of the PHP dynamic-control-flow dataset pipeline
(`php_dynctrlflow`): the qualification engine, the per-file PHP analyzer
and its repository-level aggregation, the stars-range partitioned
repository discovery, the TTL cache manager, and the GitHub client's
repository search.  Each definition is a shallow embedding of the
corresponding Python function, with external collaborators (the GitHub
provider and the Semgrep oracle) abstracted as explicit parameters.
-/

namespace PhpDyn

/-! ### Qualification summaries

Embeds the summary records produced by
`ProjectSearcher._generate_combined_summary` and
`PHPAnalyzer._generate_analysis_summary`.  The Python dicts carry a
`detection_type` key only on the accepted branches, modelled here as an
`Option String`. -/

/-- Summary record produced by the qualification functions. -/
structure AnalysisSummary where
  status : String
  reason : String
  priority : Nat
  detection_type : Option String
deriving Repr, DecidableEq

/-- Aggregated per-repository evidence flags, as built by
`ProjectSearcher._combine_analysis_results` (the merged usage lists are
elided: the qualification functions read only the three flags). -/
structure CombinedAnalysis where
  has_superglobal : Bool
  has_dynamic_functions : Bool
  has_dynamic_includes : Bool
deriving Repr, DecidableEq

/-- Per-file evidence flags, as built by
`PHPAnalyzer.analyze_file_content` (usage lists elided). -/
structure FileAnalysis where
  has_superglobal : Bool
  has_dynamic_functions : Bool
  has_dynamic_includes : Bool
deriving Repr, DecidableEq

/-- Embeds `ProjectSearcher._generate_combined_summary`. -/
def generateCombinedSummary (c : CombinedAnalysis) : AnalysisSummary :=
  if !c.has_superglobal then
    ⟨"rejected", "No SuperGlobal usage found", 0, none⟩
  else if c.has_dynamic_functions then
    ⟨"accepted", "Dynamic functions detected", 1, some "primary_functions"⟩
  else if c.has_dynamic_includes then
    ⟨"accepted", "Dynamic includes detected", 2, some "fallback_includes"⟩
  else
    ⟨"rejected", "No dynamic functions or includes found", 0, none⟩

/-- Embeds `PHPAnalyzer._generate_analysis_summary` (same decision tree as
the combined summary, over the per-file result). -/
def generateAnalysisSummary (r : FileAnalysis) : AnalysisSummary :=
  if !r.has_superglobal then
    ⟨"rejected", "No SuperGlobal usage found", 0, none⟩
  else if r.has_dynamic_functions then
    ⟨"accepted", "Dynamic functions detected", 1, some "primary_functions"⟩
  else if r.has_dynamic_includes then
    ⟨"accepted", "Dynamic includes detected", 2, some "fallback_includes"⟩
  else
    ⟨"rejected", "No dynamic functions or includes found", 0, none⟩

/-! ### Cache manager

Embeds `CacheManager` (cache_manager.py) over an abstract payload type:
the SQLite table keyed by the cache key becomes an association list, and
`time.time()` becomes an explicit integer clock passed to each
operation. -/

/-- Row of the `cache` table. -/
structure CacheEntry (V : Type) where
  value : V
  created_at : Int
  expires_at : Int
deriving Repr, DecidableEq

/-- The `cache` table: key-to-entry association list. -/
abbrev CacheStore (V : Type) := List (String × CacheEntry V)

/-- Embeds `CacheManager.delete`: removes every row with the given key. -/
def cacheDelete {V : Type} (s : CacheStore V) (key : String) : CacheStore V :=
  s.filter (fun kv => kv.1 ≠ key)

/-- Embeds `CacheManager.get` at clock `now`: a present, unexpired entry is
served; an entry with `now > expires_at` is deleted and a miss (`none`,
Python `None`) is returned.  Returns the updated store with the result. -/
def cacheGet {V : Type} (now : Int) (s : CacheStore V) (key : String) :
    CacheStore V × Option V :=
  match List.lookup key s with
  | none => (s, none)
  | some e => if e.expires_at < now then (cacheDelete s key, none) else (s, some e.value)

/-- Embeds `CacheManager.set`: `INSERT OR REPLACE` with
`expires_at = now + expire_time`, where
`expire_time = expire_after or self.expire_after`; the Python `or` sends
both `None` and `0` to the manager default. -/
def cacheSet {V : Type} (default_expire_after : Int) (now : Int) (s : CacheStore V)
    (key : String) (v : V) (expire_after : Option Int) : CacheStore V :=
  let expire_time : Int :=
    match expire_after with
    | none => default_expire_after
    | some t => if t = 0 then default_expire_after else t
  (key, ⟨v, now, now + expire_time⟩) :: cacheDelete s key

/-! ### PHP analyzer

Embeds `PHPAnalyzer` (php_analyzer.py).  The regular expressions of the
source are simple literal-plus-whitespace shapes, embedded as direct
character-list scanners; `re.IGNORECASE` patterns run over the lowercased
content.  The Semgrep collaborator is abstracted as an oracle that either
answers (a `some` result) or fails (`none`), in which case the analyzer
falls back to its regex detectors, exactly as the try/except blocks do. -/

/-- Python regex whitespace class over ASCII: space, tab, newline,
carriage return, vertical tab, form feed. -/
def pyIsSpace (c : Char) : Bool :=
  c = ' ' || c = '\t' || c = '\n' || c = '\r' || c = Char.ofNat 11 || c = Char.ofNat 12

/-- Python regex word class over ASCII: letters, digits, underscore. -/
def pyIsWord (c : Char) : Bool :=
  c.isAlphanum || c = '_'

/-- Consumes the literal `lit` at the head of `cs`, returning the rest. -/
def litAt : List Char → List Char → Option (List Char)
  | [], cs => some cs
  | _ :: _, [] => none
  | l :: ls, c :: cs => if c = l then litAt ls cs else none

/-- Matches `lit` followed by optional whitespace and the closing
character at the head of `cs` (the shape of every superglobal and
primary-function pattern). -/
def litWsCloseAt (lit : List Char) (close : Char) (cs : List Char) : Bool :=
  match litAt lit cs with
  | none => false
  | some rest =>
    match rest.dropWhile pyIsSpace with
    | [] => false
    | c :: _ => c = close

/-- Does the anchored matcher `p` fire at some position of the text
(the `re.search` / `re.finditer` nonempty-match question)? -/
def scanFor (p : List Char → Bool) : List Char → Bool
  | [] => p []
  | c :: cs => p (c :: cs) || scanFor p cs

/-- Lowercased character list of a string, for `re.IGNORECASE` patterns. -/
def lowerOf (s : String) : List Char :=
  s.toList.map Char.toLower

/-- Names in the `superglobal_patterns` list, in source order. -/
def superglobalNames : List String :=
  ["$_get", "$_post", "$_request", "$_cookie", "$_session", "$_server", "$_env", "$_files"]

/-- Embeds `PHPAnalyzer.check_superglobal_requirement`: some superglobal
pattern (name, optional whitespace, opening bracket; case-insensitive)
occurs in the content. -/
def checkSuperglobalRequirement (content : String) : Bool :=
  superglobalNames.any fun lit =>
    scanFor (litWsCloseAt lit.toList '[') (lowerOf content)

/-- Names in the `dynamic_function_patterns` list, in source order. -/
def dynamicFunctionNames : List String :=
  ["call_user_func", "call_user_func_array", "forward_static_call",
   "forward_static_call_array"]

/-- Embeds the found-flag of `PHPAnalyzer.check_primary_functions`: some
primary dynamic-function pattern (name, optional whitespace, opening
parenthesis; case-insensitive) occurs in the content. -/
def checkPrimaryFunctions (content : String) : Bool :=
  dynamicFunctionNames.any fun lit =>
    scanFor (litWsCloseAt lit.toList '(') (lowerOf content)

/-- Anchored match of the variable-call regex: dollar sign, one or more
word characters, optional whitespace, opening parenthesis. -/
def varCallAt : List Char → Bool
  | '$' :: rest =>
    match rest with
    | c :: _ =>
      pyIsWord c &&
        (match (rest.dropWhile pyIsWord).dropWhile pyIsSpace with
         | '(' :: _ => true
         | _ => false)
    | [] => false
  | _ => false

/-- Anchored match of the variable-variable-call regex: two dollar signs,
one or more word characters, optional whitespace, opening parenthesis. -/
def varVarCallAt : List Char → Bool
  | '$' :: '$' :: rest =>
    match rest with
    | c :: _ =>
      pyIsWord c &&
        (match (rest.dropWhile pyIsWord).dropWhile pyIsSpace with
         | '(' :: _ => true
         | _ => false)
    | [] => false
  | _ => false

/-- Embeds the found-flag of
`PHPAnalyzer._fallback_variable_function_detection` (case-sensitive). -/
def fallbackVariableFunctionDetection (content : String) : Bool :=
  scanFor varCallAt content.toList || scanFor varVarCallAt content.toList

/-- Keywords of the include-regex alternation, in source order. -/
def includeKeywords : List String :=
  ["include", "include_once", "require", "require_once"]

/-- Anchored match of the first include regex: keyword, optional
whitespace, opening parenthesis, optional whitespace, dollar sign, one or
more non-parenthesis characters, closing parenthesis.  A match exists
exactly when the character after the dollar sign is not a closing
parenthesis and a closing parenthesis occurs later. -/
def inclParenDollarAt (kw : List Char) (cs : List Char) : Bool :=
  match litAt kw cs with
  | none => false
  | some r1 =>
    match r1.dropWhile pyIsSpace with
    | '(' :: r2 =>
      (match r2.dropWhile pyIsSpace with
       | '$' :: rest =>
         (match rest with
          | c :: cs2 => c != ')' && cs2.contains ')'
          | [] => false)
       | _ => false)
    | _ => false

/-- Anchored match of the second include regex: keyword, mandatory
whitespace, dollar sign, one or more non-semicolon characters,
semicolon. -/
def inclStmtDollarAt (kw : List Char) (cs : List Char) : Bool :=
  match litAt kw cs with
  | some (c :: r1) =>
    pyIsSpace c &&
      (match (c :: r1).dropWhile pyIsSpace with
       | '$' :: rest =>
         (match rest with
          | d :: ds => d != ';' && ds.contains ';'
          | [] => false)
       | _ => false)
  | _ => false

/-- Anchored match of the third include regex: keyword, optional
whitespace, opening parenthesis, and a dollar sign somewhere before the
next closing parenthesis, which must exist. -/
def inclParenExprAt (kw : List Char) (cs : List Char) : Bool :=
  match litAt kw cs with
  | none => false
  | some r1 =>
    match r1.dropWhile pyIsSpace with
    | '(' :: r2 => r2.contains ')' && (r2.takeWhile (fun c => c != ')')).contains '$'
    | _ => false

/-- Embeds the found-flag of `PHPAnalyzer._fallback_include_detection`
(three include regexes, case-insensitive). -/
def fallbackIncludeDetection (content : String) : Bool :=
  includeKeywords.any fun kw =>
    scanFor (inclParenDollarAt kw.toList) (lowerOf content) ||
    scanFor (inclStmtDollarAt kw.toList) (lowerOf content) ||
    scanFor (inclParenExprAt kw.toList) (lowerOf content)

/-- External Semgrep collaborator: each detector either answers with a
found-flag or fails (`none`), which routes the analyzer to its regex
fallback, as the try/except blocks in `check_variable_functions` and
`check_fallback_includes` do. -/
structure SemgrepOracle where
  detect_variable_functions : String → Option Bool
  detect_dynamic_includes : String → Option Bool

/-- Embeds the found-flag of `PHPAnalyzer.check_variable_functions`. -/
def checkVariableFunctions (o : SemgrepOracle) (content : String) : Bool :=
  match o.detect_variable_functions content with
  | some found => found
  | none => fallbackVariableFunctionDetection content

/-- Embeds the found-flag of `PHPAnalyzer.check_fallback_includes`. -/
def checkFallbackIncludes (o : SemgrepOracle) (content : String) : Bool :=
  match o.detect_dynamic_includes content with
  | some found => found
  | none => fallbackIncludeDetection content

/-- Embeds the evidence flags of `PHPAnalyzer.analyze_file_content`: a file
without superglobal usage returns immediately with all flags false, and
includes are checked only when no dynamic function was found. -/
def analyzeFileContent (o : SemgrepOracle) (content : String) : FileAnalysis :=
  if !checkSuperglobalRequirement content then ⟨false, false, false⟩
  else
    let fn := checkPrimaryFunctions content || checkVariableFunctions o content
    ⟨true, fn, if fn then false else checkFallbackIncludes o content⟩

/-- Embeds `PHPAnalyzer.analyze_multiple_files` (per-file analysis cannot
fail in this embedding, so the error branch is unreachable). -/
def analyzeMultipleFiles (o : SemgrepOracle) (files : List (String × String)) :
    List (String × FileAnalysis) :=
  files.map fun f => (f.1, analyzeFileContent o f.2)

/-- Flag merge of one file into the combined record, from the loop body of
`ProjectSearcher._combine_analysis_results`. -/
def mergeFlags (acc : CombinedAnalysis) (r : String × FileAnalysis) : CombinedAnalysis :=
  ⟨acc.has_superglobal || r.2.has_superglobal,
   acc.has_dynamic_functions || r.2.has_dynamic_functions,
   acc.has_dynamic_includes || r.2.has_dynamic_includes⟩

/-- Embeds the flag aggregation of
`ProjectSearcher._combine_analysis_results`: the per-file flags are ORed
over all analyzed files. -/
def combineAnalysisResults (results : List (String × FileAnalysis)) : CombinedAnalysis :=
  results.foldl mergeFlags ⟨false, false, false⟩

/-- Oracle for runs where Semgrep is unavailable: every detector fails and
the regex fallbacks are used. -/
def noSemgrep : SemgrepOracle :=
  ⟨fun _ => none, fun _ => none⟩

/-- Two-file repository: a superglobal access in one file and a primary
dynamic-function call in the other. -/
def crossFileInputs : List (String × String) :=
  [("a.php", "$_GET[x]"), ("b.php", "call_user_func(f)")]

/-! ### Stars-range partitioned repository discovery

Embeds `ProjectSearcher._search_with_stars_ranges` and
`ProjectSearcher._subdivide_stars_range` (project_searcher.py).  The
GitHub client is abstracted into two oracles: `probe` returns the
total_count reported for a range (with `none` covering both a missing
total_count and a raised exception, which the source handles identically
by skipping the range), and `fetch` returns the repositories retrieved
for a range by `_search_single_query`.  The Python `while` loop becomes a
fuel-indexed recursion whose `none` result means the fuel ran out, i.e.
the loop had not terminated after that many iterations.  Range bounds are
integers; `int(min_stars * 1.5)` is embedded as `3 * min_stars / 2`,
exact for the nonnegative star counts the searcher works with. -/

/-- Repository record fields relevant to discovery: provider id and star
count.  A Python item whose "id" key is missing or falsy is modelled by
id 0, which the dedup step skips exactly as the truthiness test does. -/
structure RepoItem where
  id : Nat
  stargazers_count : Nat
deriving Repr, DecidableEq

/-- GitHub Search API hard cap on results per query. -/
def githubSearchMaxResults : Int := 1000

/-- Embeds `ProjectSearcher._subdivide_stars_range`.  A bounded range
spanning at most 100 stars is returned unchanged; larger bounded ranges
split into 2 to 4 pieces; open-ended ranges split multiplicatively. -/
def subdivideStarsRange (min_stars : Int) (max_stars : Option Int) :
    List (Int × Option Int) :=
  match max_stars with
  | none =>
    if min_stars ≥ 100000 then
      [(min_stars * 2, none),
       (min_stars, some (min_stars * 2 - 1))]
    else if min_stars ≥ 10000 then
      [(min_stars * 2, none),
       (3 * min_stars / 2, some (min_stars * 2 - 1)),
       (min_stars, some (3 * min_stars / 2 - 1))]
    else
      [(min_stars * 3, none),
       (min_stars * 2, some (min_stars * 3 - 1)),
       (3 * min_stars / 2, some (min_stars * 2 - 1)),
       (min_stars, some (3 * min_stars / 2 - 1))]
  | some mx =>
    let range_size := mx - min_stars + 1
    if range_size ≤ 100 then
      [(min_stars, some mx)]
    else if range_size ≤ 500 then
      let mid := (min_stars + mx) / 2
      [(mid + 1, some mx),
       (min_stars, some mid)]
    else if range_size ≤ 2000 then
      let third := range_size / 3
      [(min_stars + 2 * third + 1, some mx),
       (min_stars + third + 1, some (min_stars + 2 * third)),
       (min_stars, some (min_stars + third))]
    else
      let quarter := range_size / 4
      [(min_stars + 3 * quarter + 1, some mx),
       (min_stars + 2 * quarter + 1, some (min_stars + 3 * quarter)),
       (min_stars + quarter + 1, some (min_stars + 2 * quarter)),
       (min_stars, some (min_stars + quarter))]

/-- Membership of a star count in a range (closed lower bound, optional
closed upper bound). -/
def inRange (r : Int × Option Int) (x : Int) : Prop :=
  r.1 ≤ x ∧ match r.2 with | none => True | some mx => x ≤ mx

/-- Two ranges are disjoint when no star count lies in both. -/
def rangesDisjoint (a b : Int × Option Int) : Prop :=
  ∀ x : Int, ¬ (inRange a x ∧ inRange b x)

/-- Dedup-and-append step of `_search_with_stars_ranges`: each fetched
item with a truthy id not yet in the seen set is appended and its id
recorded. -/
def dedupAppend : List RepoItem → List RepoItem → List Nat →
    List RepoItem × List Nat
  | [], repos, seen => (repos, seen)
  | r :: rest, repos, seen =>
    if r.id ≠ 0 ∧ r.id ∉ seen then
      dedupAppend rest (repos ++ [r]) (r.id :: seen)
    else
      dedupAppend rest repos seen

/-- Embeds the `while ranges_to_process and len(all_repos) < count` loop
of `_search_with_stars_ranges`, with explicit fuel: `none` means the loop
was still running when the fuel ran out.  Per iteration: pop the front
range; a failed probe skips it; a probed total over the cap pushes its
subdivision onto the front of the queue; otherwise the range is fetched
and deduplicated into the accumulator. -/
def searchLoop (probe : Int × Option Int → Option Int)
    (fetch : Int × Option Int → List RepoItem) (count : Nat) :
    Nat → List (Int × Option Int) → List RepoItem → List Nat →
    Option (List RepoItem)
  | 0, _, _, _ => none
  | _ + 1, [], repos, _ => some repos
  | fuel + 1, r :: rest, repos, seen =>
    if count ≤ repos.length then some repos
    else
      match probe r with
      | none => searchLoop probe fetch count fuel rest repos seen
      | some total =>
        if githubSearchMaxResults < total then
          searchLoop probe fetch count fuel
            (subdivideStarsRange r.1 r.2 ++ rest) repos seen
        else
          let ds := dedupAppend (fetch r) repos seen
          searchLoop probe fetch count fuel rest ds.1 ds.2

/-- The initial stars ranges of `_search_with_stars_ranges`, highest
first. -/
def initialRanges : List (Int × Option Int) :=
  [(100000, none), (50000, some 99999), (20000, some 49999),
   (10000, some 19999), (5000, some 9999), (2000, some 4999),
   (1000, some 1999), (500, some 999), (200, some 499), (100, some 199),
   (50, some 99), (20, some 49), (10, some 19), (1, some 9),
   (0, some 0)]

/-- Comparator of the final sort: stars descending (Python
`sort(key=stargazers_count, reverse=True)`). -/
def starsDescBle (a b : RepoItem) : Bool :=
  decide (b.stargazers_count ≤ a.stargazers_count)

/-- Embeds `_search_with_stars_ranges` end to end: run the queue loop from
the initial ranges, then sort by stars descending and truncate to the
requested count. -/
def searchWithStarsRanges (probe : Int × Option Int → Option Int)
    (fetch : Int × Option Int → List RepoItem) (count : Nat) (fuel : Nat) :
    Option (List RepoItem) :=
  match searchLoop probe fetch count fuel initialRanges [] [] with
  | none => none
  | some repos => some ((repos.mergeSort starsDescBle).take count)

/-- Probe oracle witnessing non-termination: the narrow range 1..9 stars
reports 1500 matches (over the cap), every other range reports no
total_count. -/
def probeStuck : Int × Option Int → Option Int :=
  fun r => if r = ((1 : Int), some (9 : Int)) then some 1500 else none

/-! ### Batch filtering pipeline

Embeds `ProjectSearcher.apply_filtering_logic` (project_searcher.py),
with `_get_project_files` abstracted as an oracle returning either the
fetched path-to-content map or a fetch failure (`GitHubAPIError`). -/

/-- Outcome of one `apply_filtering_logic` run: the qualified results and
the counters tallied by the loop. -/
structure FilterOutcome (α : Type) where
  filtered_results : List α
  qualified_count : Nat
  rejected_count : Nat
  error_count : Nat
deriving Repr, DecidableEq

/-- One iteration of the `apply_filtering_logic` loop: a fetch failure
increments the error counter and skips the repository; an empty fetch
rejects it; otherwise the files are analyzed, combined and classified,
qualifying the repository exactly when the combined summary status is
"accepted" (`SearchResult.is_qualified`). -/
def filterStep {α : Type} (o : SemgrepOracle)
    (getFiles : α → Except Unit (List (String × String)))
    (acc : FilterOutcome α) (r : α) : FilterOutcome α :=
  match getFiles r with
  | .error _ =>
    { acc with error_count := acc.error_count + 1 }
  | .ok files =>
    if files = [] then
      { acc with rejected_count := acc.rejected_count + 1 }
    else
      if (generateCombinedSummary
            (combineAnalysisResults (analyzeMultipleFiles o files))).status
          = "accepted" then
        { acc with
          filtered_results := acc.filtered_results ++ [r],
          qualified_count := acc.qualified_count + 1 }
      else
        { acc with rejected_count := acc.rejected_count + 1 }

/-- Embeds `ProjectSearcher.apply_filtering_logic` over one batch. -/
def applyFilteringLogic {α : Type} (o : SemgrepOracle)
    (getFiles : α → Except Unit (List (String × String)))
    (results : List α) : FilterOutcome α :=
  results.foldl (filterStep o getFiles) ⟨[], 0, 0, 0⟩

/-- A repository whose file fetch fails entirely. -/
def fetchFails {α : Type} (getFiles : α → Except Unit (List (String × String)))
    (r : α) : Bool :=
  match getFiles r with
  | .error _ => true
  | .ok _ => false

/-- A repository that fetches successfully and is classified accepted. -/
def repoQualifies {α : Type} (o : SemgrepOracle)
    (getFiles : α → Except Unit (List (String × String))) (r : α) : Bool :=
  match getFiles r with
  | .error _ => false
  | .ok files =>
    if files = [] then false
    else
      decide ((generateCombinedSummary
          (combineAnalysisResults (analyzeMultipleFiles o files))).status
        = "accepted")

/-- A repository that fetches successfully and is classified rejected. -/
def repoRejectedBy {α : Type} (o : SemgrepOracle)
    (getFiles : α → Except Unit (List (String × String))) (r : α) : Bool :=
  match getFiles r with
  | .error _ => false
  | .ok files =>
    if files = [] then true
    else
      !(decide ((generateCombinedSummary
          (combineAnalysisResults (analyzeMultipleFiles o files))).status
        = "accepted"))

/-- Fetch oracle of the C8 scenario: in a batch of 50 repositories,
repository 23 fails file fetch entirely and every other fetch succeeds. -/
def demoGetFiles : Nat → Except Unit (List (String × String)) :=
  fun n => if n = 23 then .error () else .ok [("a.php", "x")]

/-! ### GitHub client repository search

Embeds the cache-missing path of
`GitHubAPIClient.search_repositories_optimized` (github_client.py).  The
provider's paginated search result is abstracted as the list of
repositories the `for repo in search_results` loop would traverse. -/

/-- Embeds the `for repo in search_results` loop: `count >= end_index`
breaks out of the loop (and the function then falls through, returning
Python `None`); otherwise the item is appended when `count >= start_index`
and, because the cache-store and `return results` statements sit inside
the loop body, the function returns at the end of the first executed
iteration. -/
def searchReposLoop (start_index end_index : Int) :
    List RepoItem → Int → List RepoItem → Option (List RepoItem)
  | [], _, _ => none
  | repo :: _, count, results =>
    if end_index ≤ count then none
    else
      some (if start_index ≤ count then results ++ [repo] else results)

/-- Embeds `search_repositories_optimized` on a cache miss:
`start_index = (page - 1) * per_page`, `end_index = start_index + per_page`,
loop from `count = 0` with empty `results`. -/
def searchRepositoriesOptimized (providerResults : List RepoItem)
    (per_page page : Int) : Option (List RepoItem) :=
  searchReposLoop ((page - 1) * per_page) ((page - 1) * per_page + per_page)
    providerResults 0 []

theorem lookup_cacheDelete {V : Type} (key : String) :
    ∀ s : CacheStore V, List.lookup key (cacheDelete s key) = none := by
  intro s
  induction s with
  | nil => rfl
  | cons kv rest ih =>
    by_cases h : kv.1 = key
    · simpa [cacheDelete, h] using ih
    · have hne : ¬ (key == kv.1) = true := by
        simp [beq_iff_eq]
        exact fun hk => h hk.symm
      simp [cacheDelete, h, List.lookup, hne]
      simpa [cacheDelete] using ih

theorem lookup_cacheSet {V : Type} (default_expire_after now : Int) (s : CacheStore V)
    (key : String) (v : V) (expire_after : Option Int) :
    List.lookup key (cacheSet default_expire_after now s key v expire_after) =
      some ⟨v, now, now +
        (match expire_after with
         | none => default_expire_after
         | some t => if t = 0 then default_expire_after else t)⟩ := by
  simp [cacheSet, List.lookup]

/-- C1: an aggregated evidence set with superglobal-access evidence and both
dynamic-function-call and dynamic-include evidence is classified accepted
with priority 1 and detection_type "primary_functions" (never priority 2),
by both the combined summary and the per-file summary. -/
theorem qualification_both_kinds_gives_priority_one
    (c : CombinedAnalysis) (r : FileAnalysis)
    (hc1 : c.has_superglobal = true) (hc2 : c.has_dynamic_functions = true)
    (hc3 : c.has_dynamic_includes = true)
    (hr1 : r.has_superglobal = true) (hr2 : r.has_dynamic_functions = true)
    (hr3 : r.has_dynamic_includes = true) :
    generateCombinedSummary c =
      ⟨"accepted", "Dynamic functions detected", 1, some "primary_functions"⟩ ∧
    (generateCombinedSummary c).priority ≠ 2 ∧
    generateAnalysisSummary r =
      ⟨"accepted", "Dynamic functions detected", 1, some "primary_functions"⟩ := by
  refine ⟨?_, ?_, ?_⟩
  · simp [generateCombinedSummary, hc1, hc2]
  · simp [generateCombinedSummary, hc1, hc2]
  · simp [generateAnalysisSummary, hr1, hr2]

theorem qualification_both_kinds_gives_priority_one_witness :
    generateCombinedSummary ⟨true, true, true⟩ =
      ⟨"accepted", "Dynamic functions detected", 1, some "primary_functions"⟩ ∧
    (generateCombinedSummary ⟨true, true, true⟩).priority ≠ 2 ∧
    generateAnalysisSummary ⟨true, true, true⟩ =
      ⟨"accepted", "Dynamic functions detected", 1, some "primary_functions"⟩ :=
  qualification_both_kinds_gives_priority_one ⟨true, true, true⟩ ⟨true, true, true⟩
    rfl rfl rfl rfl rfl rfl

/-- C2: an aggregated evidence set with no superglobal-access evidence is
rejected with priority 0 and the no-superglobal-usage reason, regardless of
the dynamic-function and dynamic-include flags; likewise per file. -/
theorem qualification_no_superglobal_rejected
    (c : CombinedAnalysis) (r : FileAnalysis)
    (hc : c.has_superglobal = false) (hr : r.has_superglobal = false) :
    generateCombinedSummary c = ⟨"rejected", "No SuperGlobal usage found", 0, none⟩ ∧
    generateAnalysisSummary r = ⟨"rejected", "No SuperGlobal usage found", 0, none⟩ := by
  constructor
  · simp [generateCombinedSummary, hc]
  · simp [generateAnalysisSummary, hr]

theorem qualification_no_superglobal_rejected_witness :
    generateCombinedSummary ⟨false, true, true⟩ =
      ⟨"rejected", "No SuperGlobal usage found", 0, none⟩ ∧
    generateAnalysisSummary ⟨false, true, true⟩ =
      ⟨"rejected", "No SuperGlobal usage found", 0, none⟩ :=
  qualification_no_superglobal_rejected ⟨false, true, true⟩ ⟨false, true, true⟩ rfl rfl

/-- C7: after set(key, v, ttl) with a positive ttl, get(key) at any time
before now + ttl returns v; get(key) at any time strictly later than the
stored expiry returns a miss and evicts the entry; and in general no entry
is ever served once the clock is strictly past its expires_at. -/
theorem cache_set_get_ttl {V : Type} (default now : Int) (s : CacheStore V)
    (key : String) (v : V) (ttl : Int) (httl : 0 < ttl) :
    (∀ t : Int, t < now + ttl →
      (cacheGet t (cacheSet default now s key v (some ttl)) key).2 = some v) ∧
    (∀ t : Int, now + ttl < t →
      (cacheGet t (cacheSet default now s key v (some ttl)) key).2 = none ∧
      List.lookup key (cacheGet t (cacheSet default now s key v (some ttl)) key).1 = none) ∧
    (∀ (s' : CacheStore V) (e : CacheEntry V) (t : Int),
      List.lookup key s' = some e → e.expires_at < t → (cacheGet t s' key).2 = none) := by
  have hz : ttl ≠ 0 := by omega
  have hset : List.lookup key (cacheSet default now s key v (some ttl)) =
      some ⟨v, now, now + ttl⟩ := by
    have := lookup_cacheSet (V := V) default now s key v (some ttl)
    simpa [hz] using this
  refine ⟨?_, ?_, ?_⟩
  · intro t ht
    simp only [cacheGet, hset]
    have : ¬ (now + ttl < t) := by omega
    simp [this]
  · intro t ht
    constructor
    · simp only [cacheGet, hset]
      simp [ht]
    · simp only [cacheGet, hset]
      simp only [ht, if_pos]
      exact lookup_cacheDelete key _
  · intro s' e t hlook hexp
    simp [cacheGet, hlook, hexp]

theorem cache_set_get_ttl_witness :
    (cacheGet 5 (cacheSet 3600 0 ([] : CacheStore Nat) "k" 7 (some 10)) "k").2 = some 7 ∧
    (cacheGet 20 (cacheSet 3600 0 ([] : CacheStore Nat) "k" 7 (some 10)) "k").2 = none ∧
    List.lookup "k" (cacheGet 20 (cacheSet 3600 0 ([] : CacheStore Nat) "k" 7 (some 10)) "k").1
      = none := by
  have h := cache_set_get_ttl (V := Nat) 3600 0 [] "k" 7 10 (by decide)
  exact ⟨h.1 5 (by decide), (h.2.1 20 (by decide)).1, (h.2.1 20 (by decide)).2⟩

/-- C10: set(key, v, expire_after=0) stores the entry with the manager's
default TTL (the zero ttl is replaced by the default), so a get within the
default TTL returns v. -/
theorem cache_set_zero_ttl_uses_default {V : Type} (default now : Int) (s : CacheStore V)
    (key : String) (v : V) :
    List.lookup key (cacheSet default now s key v (some 0)) =
      some ⟨v, now, now + default⟩ ∧
    (∀ t : Int, t ≤ now + default →
      (cacheGet t (cacheSet default now s key v (some 0)) key).2 = some v) := by
  have hset : List.lookup key (cacheSet default now s key v (some 0)) =
      some ⟨v, now, now + default⟩ := by
    simpa using lookup_cacheSet (V := V) default now s key v (some 0)
  refine ⟨hset, ?_⟩
  intro t ht
  simp only [cacheGet, hset]
  have : ¬ (now + default < t) := by omega
  simp [this]

theorem foldl_mergeFlags (l : List (String × FileAnalysis)) :
    ∀ acc : CombinedAnalysis,
      (l.foldl mergeFlags acc).has_superglobal
          = (acc.has_superglobal || l.any (fun r => r.2.has_superglobal)) ∧
      (l.foldl mergeFlags acc).has_dynamic_functions
          = (acc.has_dynamic_functions || l.any (fun r => r.2.has_dynamic_functions)) ∧
      (l.foldl mergeFlags acc).has_dynamic_includes
          = (acc.has_dynamic_includes || l.any (fun r => r.2.has_dynamic_includes)) := by
  induction l with
  | nil => intro acc; simp
  | cons hd tl ih =>
    intro acc
    obtain ⟨i1, i2, i3⟩ := ih (mergeFlags acc hd)
    refine ⟨?_, ?_, ?_⟩
    · rw [List.foldl_cons, i1]
      simp [mergeFlags, Bool.or_assoc]
    · rw [List.foldl_cons, i2]
      simp [mergeFlags, Bool.or_assoc]
    · rw [List.foldl_cons, i3]
      simp [mergeFlags, Bool.or_assoc]

theorem analyzeFileContent_has_superglobal (o : SemgrepOracle) (c : String) :
    (analyzeFileContent o c).has_superglobal = checkSuperglobalRequirement c := by
  cases h : checkSuperglobalRequirement c <;> simp [analyzeFileContent, h]

theorem analyzeFileContent_has_dynamic_functions (o : SemgrepOracle) (c : String) :
    (analyzeFileContent o c).has_dynamic_functions
      = (checkSuperglobalRequirement c
          && (checkPrimaryFunctions c || checkVariableFunctions o c)) := by
  cases h : checkSuperglobalRequirement c <;> simp [analyzeFileContent, h]

theorem analyzeFileContent_has_dynamic_includes (o : SemgrepOracle) (c : String) :
    (analyzeFileContent o c).has_dynamic_includes
      = (checkSuperglobalRequirement c
          && !(checkPrimaryFunctions c || checkVariableFunctions o c)
          && checkFallbackIncludes o c) := by
  cases h : checkSuperglobalRequirement c
  · simp [analyzeFileContent, h]
  · cases h2 : (checkPrimaryFunctions c || checkVariableFunctions o c) <;>
      simp [analyzeFileContent, h, h2]

theorem anyFlags_analyzeMultipleFiles (o : SemgrepOracle) (files : List (String × String)) :
    ((analyzeMultipleFiles o files).any fun r => r.2.has_superglobal)
      = files.any (fun f => checkSuperglobalRequirement f.2) ∧
    ((analyzeMultipleFiles o files).any fun r => r.2.has_dynamic_functions)
      = files.any (fun f => checkSuperglobalRequirement f.2
          && (checkPrimaryFunctions f.2 || checkVariableFunctions o f.2)) ∧
    ((analyzeMultipleFiles o files).any fun r => r.2.has_dynamic_includes)
      = files.any (fun f => checkSuperglobalRequirement f.2
          && !(checkPrimaryFunctions f.2 || checkVariableFunctions o f.2)
          && checkFallbackIncludes o f.2) := by
  induction files with
  | nil => exact ⟨rfl, rfl, rfl⟩
  | cons hd tl ih =>
    obtain ⟨i1, i2, i3⟩ := ih
    refine ⟨?_, ?_, ?_⟩
    · simp only [analyzeMultipleFiles, List.map_cons, List.any_cons,
        analyzeFileContent_has_superglobal] at i1 ⊢
      rw [i1]
    · simp only [analyzeMultipleFiles, List.map_cons, List.any_cons,
        analyzeFileContent_has_dynamic_functions] at i2 ⊢
      rw [i2]
    · simp only [analyzeMultipleFiles, List.map_cons, List.any_cons,
        analyzeFileContent_has_dynamic_includes] at i3 ⊢
      rw [i3]

theorem combined_flags_eq (o : SemgrepOracle) (files : List (String × String)) :
    (combineAnalysisResults (analyzeMultipleFiles o files)).has_superglobal
      = files.any (fun f => checkSuperglobalRequirement f.2) ∧
    (combineAnalysisResults (analyzeMultipleFiles o files)).has_dynamic_functions
      = files.any (fun f => checkSuperglobalRequirement f.2
          && (checkPrimaryFunctions f.2 || checkVariableFunctions o f.2)) ∧
    (combineAnalysisResults (analyzeMultipleFiles o files)).has_dynamic_includes
      = files.any (fun f => checkSuperglobalRequirement f.2
          && !(checkPrimaryFunctions f.2 || checkVariableFunctions o f.2)
          && checkFallbackIncludes o f.2) := by
  obtain ⟨h1, h2, h3⟩ := foldl_mergeFlags (analyzeMultipleFiles o files) ⟨false, false, false⟩
  obtain ⟨a1, a2, a3⟩ := anyFlags_analyzeMultipleFiles o files
  unfold combineAnalysisResults
  rw [h1, a1, h2, a2, h3, a3]
  simp only [Bool.false_or]
  exact ⟨trivial, trivial, trivial⟩

/-- C3 counterexample: with Semgrep unavailable and the two-file repository
`crossFileInputs` (superglobal access only in the first file, a
`call_user_func(` call only in the second), the repository-level
dynamic-function flag is false although a fetched file exhibits
dynamic-function evidence, refuting the claimed if-and-only-if. -/
theorem evidence_union_across_files_counterexample :
    ¬ (((combineAnalysisResults
          (analyzeMultipleFiles noSemgrep crossFileInputs)).has_dynamic_functions = true) ↔
        ∃ f ∈ crossFileInputs,
          (checkPrimaryFunctions f.2 || checkVariableFunctions noSemgrep f.2) = true) := by
  decide

/-- C3 amended: the repository-level flags are ORs of the per-file gated
flags: the superglobal flag is true iff some fetched file has superglobal
usage; the dynamic-function flag is true iff some fetched file has both
superglobal usage and dynamic-function evidence; the dynamic-include flag
is true iff some fetched file has superglobal usage, no dynamic-function
evidence, and dynamic-include evidence.  Evidence in a file without
superglobal usage never propagates to the repository level. -/
theorem evidence_union_across_files_gated (o : SemgrepOracle)
    (files : List (String × String)) :
    ((combineAnalysisResults (analyzeMultipleFiles o files)).has_superglobal = true ↔
      ∃ f ∈ files, checkSuperglobalRequirement f.2 = true) ∧
    ((combineAnalysisResults (analyzeMultipleFiles o files)).has_dynamic_functions = true ↔
      ∃ f ∈ files, checkSuperglobalRequirement f.2 = true ∧
        (checkPrimaryFunctions f.2 || checkVariableFunctions o f.2) = true) ∧
    ((combineAnalysisResults (analyzeMultipleFiles o files)).has_dynamic_includes = true ↔
      ∃ f ∈ files, checkSuperglobalRequirement f.2 = true ∧
        (checkPrimaryFunctions f.2 || checkVariableFunctions o f.2) = false ∧
        checkFallbackIncludes o f.2 = true) := by
  obtain ⟨h1, h2, h3⟩ := combined_flags_eq o files
  refine ⟨?_, ?_, ?_⟩
  · rw [h1, List.any_eq_true]
  · rw [h2, List.any_eq_true]
    constructor
    · rintro ⟨f, hf, hp⟩
      rw [Bool.and_eq_true] at hp
      exact ⟨f, hf, hp⟩
    · rintro ⟨f, hf, hp⟩
      exact ⟨f, hf, Bool.and_eq_true _ _ |>.mpr hp⟩
  · rw [h3, List.any_eq_true]
    constructor
    · rintro ⟨f, hf, hp⟩
      rw [Bool.and_eq_true, Bool.and_eq_true, Bool.not_eq_true'] at hp
      exact ⟨f, hf, hp.1.1, hp.1.2, hp.2⟩
    · rintro ⟨f, hf, hp1, hp2, hp3⟩
      refine ⟨f, hf, ?_⟩
      rw [Bool.and_eq_true, Bool.and_eq_true, Bool.not_eq_true']
      exact ⟨⟨hp1, hp2⟩, hp3⟩

theorem rangesDisjoint_of_lt_lower (a₁ : Int) (h₁ : Option Int) (a₂ m₂ : Int)
    (h : m₂ < a₁) : rangesDisjoint (a₁, h₁) (a₂, some m₂) := by
  rintro x ⟨hx1, hx2⟩
  have l1 : a₁ ≤ x := hx1.1
  have l2 : x ≤ m₂ := hx2.2
  omega

/-- C6: subdividing a range whose span is above the 100-star minimum (or
any open-ended range, whose span is unbounded) yields children that are
pairwise disjoint and whose union is exactly the parent span, in every
branch of the subdivision heuristic. -/
theorem subdivision_children_disjoint_cover (lo : Int) (hi : Option Int)
    (hspan : match hi with | none => 0 ≤ lo | some mx => 100 < mx - lo + 1) :
    (subdivideStarsRange lo hi).Pairwise rangesDisjoint ∧
    (∀ x : Int, inRange (lo, hi) x ↔ ∃ c ∈ subdivideStarsRange lo hi, inRange c x) := by
  cases hi with
  | none =>
    have h0 : 0 ≤ lo := hspan
    by_cases h1 : lo ≥ 100000
    · have hc : subdivideStarsRange lo none
          = [(lo * 2, none), (lo, some (lo * 2 - 1))] := by
        simp [subdivideStarsRange, h1]
      rw [hc]
      constructor
      · simp only [List.pairwise_cons, List.mem_cons, List.not_mem_nil, or_false,
          forall_eq, forall_eq_or_imp, List.Pairwise.nil]
        refine ⟨?_, fun _ hx => hx.elim, trivial⟩
        exact rangesDisjoint_of_lt_lower _ _ _ _ (by omega)
      · intro x
        simp [inRange]
        omega
    · by_cases h2 : lo ≥ 10000
      · have hc : subdivideStarsRange lo none
            = [(lo * 2, none),
               (3 * lo / 2, some (lo * 2 - 1)),
               (lo, some (3 * lo / 2 - 1))] := by
          simp [subdivideStarsRange, h1, h2]
        rw [hc]
        constructor
        · simp only [List.pairwise_cons, List.mem_cons, List.not_mem_nil, or_false,
            forall_eq, forall_eq_or_imp, List.Pairwise.nil]
          refine ⟨⟨?_, ?_⟩, ?_, fun _ hx => hx.elim, trivial⟩ <;>
            exact rangesDisjoint_of_lt_lower _ _ _ _ (by omega)
        · intro x
          simp [inRange]
          omega
      · have hc : subdivideStarsRange lo none
            = [(lo * 3, none),
               (lo * 2, some (lo * 3 - 1)),
               (3 * lo / 2, some (lo * 2 - 1)),
               (lo, some (3 * lo / 2 - 1))] := by
          simp [subdivideStarsRange, h1, h2]
        rw [hc]
        constructor
        · simp only [List.pairwise_cons, List.mem_cons, List.not_mem_nil, or_false,
            forall_eq, forall_eq_or_imp, List.Pairwise.nil]
          refine ⟨⟨?_, ?_, ?_⟩, ⟨?_, ?_⟩, ?_, fun _ hx => hx.elim, trivial⟩ <;>
            exact rangesDisjoint_of_lt_lower _ _ _ _ (by omega)
        · intro x
          simp [inRange]
          omega
  | some mx =>
    have hs : 100 < mx - lo + 1 := hspan
    have hA : ¬ (mx - lo + 1 ≤ 100) := by omega
    by_cases h2 : mx - lo + 1 ≤ 500
    · have hc : subdivideStarsRange lo (some mx)
          = [((lo + mx) / 2 + 1, some mx),
             (lo, some ((lo + mx) / 2))] := by
        simp [subdivideStarsRange, hA, h2]
      rw [hc]
      constructor
      · simp only [List.pairwise_cons, List.mem_cons, List.not_mem_nil, or_false,
          forall_eq, forall_eq_or_imp, List.Pairwise.nil]
        refine ⟨?_, fun _ hx => hx.elim, trivial⟩
        exact rangesDisjoint_of_lt_lower _ _ _ _ (by omega)
      · intro x
        simp [inRange]
        omega
    · by_cases h3 : mx - lo + 1 ≤ 2000
      · have hc : subdivideStarsRange lo (some mx)
            = [(lo + 2 * ((mx - lo + 1) / 3) + 1, some mx),
               (lo + (mx - lo + 1) / 3 + 1, some (lo + 2 * ((mx - lo + 1) / 3))),
               (lo, some (lo + (mx - lo + 1) / 3))] := by
          simp [subdivideStarsRange, hA, h2, h3]
        rw [hc]
        constructor
        · simp only [List.pairwise_cons, List.mem_cons, List.not_mem_nil, or_false,
            forall_eq, forall_eq_or_imp, List.Pairwise.nil]
          refine ⟨⟨?_, ?_⟩, ?_, fun _ hx => hx.elim, trivial⟩ <;>
            exact rangesDisjoint_of_lt_lower _ _ _ _ (by omega)
        · intro x
          simp [inRange]
          omega
      · have hc : subdivideStarsRange lo (some mx)
            = [(lo + 3 * ((mx - lo + 1) / 4) + 1, some mx),
               (lo + 2 * ((mx - lo + 1) / 4) + 1, some (lo + 3 * ((mx - lo + 1) / 4))),
               (lo + (mx - lo + 1) / 4 + 1, some (lo + 2 * ((mx - lo + 1) / 4))),
               (lo, some (lo + (mx - lo + 1) / 4))] := by
          simp [subdivideStarsRange, hA, h2, h3]
        rw [hc]
        constructor
        · simp only [List.pairwise_cons, List.mem_cons, List.not_mem_nil, or_false,
            forall_eq, forall_eq_or_imp, List.Pairwise.nil]
          refine ⟨⟨?_, ?_, ?_⟩, ⟨?_, ?_⟩, ?_, fun _ hx => hx.elim, trivial⟩ <;>
            exact rangesDisjoint_of_lt_lower _ _ _ _ (by omega)
        · intro x
          simp [inRange]
          omega

theorem subdivision_children_disjoint_cover_witness :
    ((subdivideStarsRange 0 (some 200)).Pairwise rangesDisjoint ∧
      (∀ x : Int, inRange (0, some 200) x ↔
        ∃ c ∈ subdivideStarsRange 0 (some 200), inRange c x)) ∧
    ((subdivideStarsRange 100000 none).Pairwise rangesDisjoint ∧
      (∀ x : Int, inRange (100000, none) x ↔
        ∃ c ∈ subdivideStarsRange 100000 none, inRange c x)) :=
  ⟨subdivision_children_disjoint_cover 0 (some 200) (by omega),
   subdivision_children_disjoint_cover 100000 none (by omega)⟩

theorem searchLoop_stuck_aux :
    ∀ (fuel : Nat) (q : List (Int × Option Int)),
      ((1 : Int), some (9 : Int)) ∈ q →
      (∀ r ∈ q, r ≠ ((1 : Int), some (9 : Int)) → probeStuck r = none) →
      searchLoop probeStuck (fun _ => []) 10 fuel q [] [] = none := by
  intro fuel
  induction fuel with
  | zero =>
    intro q _ _
    rfl
  | succ n ih =>
    intro q hmem hnone
    cases q with
    | nil => exact absurd hmem (List.not_mem_nil _)
    | cons r rest =>
      by_cases hr : r = ((1 : Int), some (9 : Int))
      · subst hr
        have hprobe : probeStuck ((1 : Int), some (9 : Int)) = some 1500 := by
          simp [probeStuck]
        have hsub : subdivideStarsRange 1 (some 9) = [((1 : Int), some (9 : Int))] := by
          decide
        simp only [searchLoop, List.length_nil, hprobe, hsub]
        rw [if_neg (by omega), if_pos (by decide)]
        simp only [List.singleton_append]
        exact ih (((1 : Int), some (9 : Int)) :: rest) (List.mem_cons_self _ _)
          hnone
      · have hprobe : probeStuck r = none :=
          hnone r (List.mem_cons_self _ _) hr
        simp only [searchLoop, List.length_nil, hprobe]
        rw [if_neg (by omega)]
        refine ih rest ?_ ?_
        · rcases List.mem_cons.mp hmem with h | h
          · exact absurd h.symm hr
          · exact h
        · intro s hs hne
          exact hnone s (List.mem_cons_of_mem _ hs) hne

/-- C5 (refuted by the code): a bounded range spanning at most 100 stars
whose probed total is over the cap is returned unchanged by
`_subdivide_stars_range` and re-enqueued at the front of the queue, so the
discovery loop revisits it forever and never fetches it: with a probe
oracle reporting 1500 matches for the range 1..9 stars, the loop is still
running after every fuel bound, i.e. it does not terminate. -/
theorem discovery_stuck_on_small_over_cap_range :
    subdivideStarsRange 1 (some 9) = [((1 : Int), some (9 : Int))] ∧
    ∀ fuel : Nat, searchWithStarsRanges probeStuck (fun _ => []) 10 fuel = none := by
  refine ⟨by decide, ?_⟩
  intro fuel
  unfold searchWithStarsRanges
  rw [searchLoop_stuck_aux fuel initialRanges (by decide) (by decide)]

theorem dedupAppend_invariant :
    ∀ (fetched repos : List RepoItem) (seen : List Nat),
      (repos.map RepoItem.id).Nodup →
      (∀ i ∈ repos.map RepoItem.id, i ∈ seen) →
      ((dedupAppend fetched repos seen).1.map RepoItem.id).Nodup ∧
      (∀ i ∈ (dedupAppend fetched repos seen).1.map RepoItem.id,
        i ∈ (dedupAppend fetched repos seen).2) := by
  intro fetched
  induction fetched with
  | nil =>
    intro repos seen h1 h2
    exact ⟨h1, h2⟩
  | cons r rest ih =>
    intro repos seen h1 h2
    by_cases hc : r.id ≠ 0 ∧ r.id ∉ seen
    · simp only [dedupAppend, if_pos hc]
      apply ih
      · rw [List.map_append]
        rw [List.nodup_append]
        refine ⟨h1, List.nodup_singleton _, ?_⟩
        intro i hi
        simp only [List.map_cons, List.map_nil, List.mem_singleton]
        intro heq
        exact hc.2 (heq ▸ h2 i hi)
      · intro i hi
        rw [List.map_append] at hi
        rcases List.mem_append.mp hi with h | h
        · exact List.mem_cons_of_mem _ (h2 i h)
        · simp only [List.map_cons, List.map_nil, List.mem_singleton] at h
          exact h ▸ List.mem_cons_self _ _
    · simp only [dedupAppend, if_neg hc]
      exact ih repos seen h1 h2

theorem searchLoop_nodup (probe : Int × Option Int → Option Int)
    (fetch : Int × Option Int → List RepoItem) (count : Nat) :
    ∀ (fuel : Nat) (q : List (Int × Option Int)) (repos : List RepoItem)
      (seen : List Nat),
      (repos.map RepoItem.id).Nodup →
      (∀ i ∈ repos.map RepoItem.id, i ∈ seen) →
      ∀ result, searchLoop probe fetch count fuel q repos seen = some result →
      (result.map RepoItem.id).Nodup := by
  intro fuel
  induction fuel with
  | zero =>
    intro q repos seen h1 _ result h
    simp [searchLoop] at h
  | succ n ih =>
    intro q repos seen h1 h2 result h
    cases q with
    | nil =>
      simp only [searchLoop, Option.some.injEq] at h
      exact h ▸ h1
    | cons r rest =>
      simp only [searchLoop] at h
      by_cases hg : count ≤ repos.length
      · rw [if_pos hg] at h
        injection h with h
        exact h ▸ h1
      · rw [if_neg hg] at h
        split at h
        · exact ih rest repos seen h1 h2 result h
        · split at h
          · exact ih _ repos seen h1 h2 result h
          · obtain ⟨d1, d2⟩ := dedupAppend_invariant (fetch r) repos seen h1 h2
            exact ih rest _ _ d1 d2 result h

/-- C4: whenever the range-partitioned discovery loop terminates, the
returned repository list is sorted by star count descending, has length at
most the requested count, and contains no provider id twice. -/
theorem discovery_sorted_bounded_nodup (probe : Int × Option Int → Option Int)
    (fetch : Int × Option Int → List RepoItem) (count fuel : Nat)
    (result : List RepoItem)
    (h : searchWithStarsRanges probe fetch count fuel = some result) :
    List.Sorted (fun a b : RepoItem => b.stargazers_count ≤ a.stargazers_count) result ∧
    result.length ≤ count ∧
    (result.map RepoItem.id).Nodup := by
  unfold searchWithStarsRanges at h
  cases hr : searchLoop probe fetch count fuel initialRanges [] [] with
  | none =>
    rw [hr] at h
    cases h
  | some repos =>
    rw [hr] at h
    injection h with h
    subst h
    refine ⟨?_, ?_, ?_⟩
    · have htrans : ∀ a b c : RepoItem,
          starsDescBle a b → starsDescBle b c → starsDescBle a c := by
        intro a b c hab hbc
        simp only [starsDescBle, decide_eq_true_eq] at *
        omega
      have htotal : ∀ a b : RepoItem, starsDescBle a b || starsDescBle b a := by
        intro a b
        simp only [starsDescBle]
        by_cases hab : b.stargazers_count ≤ a.stargazers_count
        · simp [hab]
        · simp [hab]
          omega
      have hsorted := List.sorted_mergeSort htrans htotal repos
      have hsorted' : List.Pairwise
          (fun a b : RepoItem => b.stargazers_count ≤ a.stargazers_count)
          (repos.mergeSort starsDescBle) := by
        refine hsorted.imp ?_
        intro a b hab
        simpa [starsDescBle] using hab
      exact hsorted'.sublist (List.take_sublist _ _)
    · exact List.length_take_le _ _
    · have hn := searchLoop_nodup probe fetch count fuel initialRanges [] []
        (by simp) (by simp) repos hr
      have hperm : List.Perm (repos.mergeSort starsDescBle) repos :=
        List.mergeSort_perm repos starsDescBle
      have hmn : ((repos.mergeSort starsDescBle).map RepoItem.id).Nodup :=
        ((hperm.map RepoItem.id).nodup_iff).mpr hn
      have hsub : List.Sublist
          (((repos.mergeSort starsDescBle).take count).map RepoItem.id)
          ((repos.mergeSort starsDescBle).map RepoItem.id) :=
        (List.take_sublist _ _).map _
      exact hmn.sublist hsub

theorem discovery_sorted_bounded_nodup_witness :
    List.Sorted (fun a b : RepoItem => b.stargazers_count ≤ a.stargazers_count)
      ([] : List RepoItem) ∧
    ([] : List RepoItem).length ≤ 5 ∧
    (([] : List RepoItem).map RepoItem.id).Nodup :=
  discovery_sorted_bounded_nodup (fun _ => none) (fun _ => []) 5 16 [] (by
    have hloop : searchLoop (fun _ => none) (fun _ => []) 5 16 initialRanges [] []
        = some [] := by decide
    unfold searchWithStarsRanges
    rw [hloop]
    simp)

theorem cache_set_zero_ttl_uses_default_witness :
    List.lookup "k" (cacheSet 3600 0 ([] : CacheStore Nat) "k" 7 (some 0)) =
      some ⟨7, 0, 3600⟩ ∧
    (cacheGet 3600 (cacheSet 3600 0 ([] : CacheStore Nat) "k" 7 (some 0)) "k").2 = some 7 := by
  have h := cache_set_zero_ttl_uses_default (V := Nat) 3600 0 [] "k" 7
  exact ⟨h.1, h.2 3600 (by decide)⟩

theorem filterStep_foldl_characterization {α : Type} (o : SemgrepOracle)
    (getFiles : α → Except Unit (List (String × String))) :
    ∀ (l : List α) (acc : FilterOutcome α),
      l.foldl (filterStep o getFiles) acc =
        ⟨acc.filtered_results ++ l.filter (repoQualifies o getFiles),
         acc.qualified_count + (l.filter (repoQualifies o getFiles)).length,
         acc.rejected_count + (l.filter (repoRejectedBy o getFiles)).length,
         acc.error_count + (l.filter (fetchFails getFiles)).length⟩ := by
  intro l
  induction l with
  | nil => intro acc; simp
  | cons hd tl ih =>
    intro acc
    rw [List.foldl_cons, ih (filterStep o getFiles acc hd)]
    cases hgf : getFiles hd with
    | error e =>
      have h1 : repoQualifies o getFiles hd = false := by simp [repoQualifies, hgf]
      have h2 : repoRejectedBy o getFiles hd = false := by simp [repoRejectedBy, hgf]
      have h3 : fetchFails getFiles hd = true := by simp [fetchFails, hgf]
      simp [filterStep, hgf, List.filter_cons, h1, h2, h3]
      omega
    | ok files =>
      have h3 : fetchFails getFiles hd = false := by simp [fetchFails, hgf]
      by_cases hemp : files = []
      · have h1 : repoQualifies o getFiles hd = false := by
          simp [repoQualifies, hgf, hemp]
        have h2 : repoRejectedBy o getFiles hd = true := by
          simp [repoRejectedBy, hgf, hemp]
        simp [filterStep, hgf, hemp, List.filter_cons, h1, h2, h3]
        omega
      · by_cases hacc : (generateCombinedSummary
            (combineAnalysisResults (analyzeMultipleFiles o files))).status
            = "accepted"
        · have h1 : repoQualifies o getFiles hd = true := by
            simp [repoQualifies, hgf, hemp, hacc]
          have h2 : repoRejectedBy o getFiles hd = false := by
            simp [repoRejectedBy, hgf, hemp, hacc]
          simp [filterStep, hgf, hemp, hacc, List.filter_cons, h1, h2, h3]
          omega
        · have h1 : repoQualifies o getFiles hd = false := by
            simp [repoQualifies, hgf, hemp, hacc]
          have h2 : repoRejectedBy o getFiles hd = true := by
            simp [repoRejectedBy, hgf, hemp, hacc]
          simp [filterStep, hgf, hemp, hacc, List.filter_cons, h1, h2, h3]
          omega

theorem qual_rej_partition {α : Type} (o : SemgrepOracle)
    (getFiles : α → Except Unit (List (String × String))) :
    ∀ l : List α,
      (l.filter (repoQualifies o getFiles)).length
        + (l.filter (repoRejectedBy o getFiles)).length
        = (l.filter (fun r => !(fetchFails getFiles r))).length := by
  intro l
  induction l with
  | nil => rfl
  | cons hd tl ih =>
    cases hgf : getFiles hd with
    | error e =>
      have h1 : repoQualifies o getFiles hd = false := by simp [repoQualifies, hgf]
      have h2 : repoRejectedBy o getFiles hd = false := by simp [repoRejectedBy, hgf]
      have h3 : fetchFails getFiles hd = true := by simp [fetchFails, hgf]
      simp [List.filter_cons, h1, h2, h3, ih]
    | ok files =>
      have h3 : fetchFails getFiles hd = false := by simp [fetchFails, hgf]
      by_cases hemp : files = []
      · have h1 : repoQualifies o getFiles hd = false := by
          simp [repoQualifies, hgf, hemp]
        have h2 : repoRejectedBy o getFiles hd = true := by
          simp [repoRejectedBy, hgf, hemp]
        simp [List.filter_cons, h1, h2, h3]
        omega
      · by_cases hacc : (generateCombinedSummary
            (combineAnalysisResults (analyzeMultipleFiles o files))).status
            = "accepted"
        · have h1 : repoQualifies o getFiles hd = true := by
            simp [repoQualifies, hgf, hemp, hacc]
          have h2 : repoRejectedBy o getFiles hd = false := by
            simp [repoRejectedBy, hgf, hemp, hacc]
          simp [List.filter_cons, h1, h2, h3]
          omega
        · have h1 : repoQualifies o getFiles hd = false := by
            simp [repoQualifies, hgf, hemp, hacc]
          have h2 : repoRejectedBy o getFiles hd = true := by
            simp [repoRejectedBy, hgf, hemp, hacc]
          simp [List.filter_cons, h1, h2, h3]
          omega

theorem repoQualifies_not_fails {α : Type} (o : SemgrepOracle)
    (getFiles : α → Except Unit (List (String × String))) (r : α)
    (h : repoQualifies o getFiles r = true) : fetchFails getFiles r = false := by
  cases hgf : getFiles r with
  | error e => simp [repoQualifies, hgf] at h
  | ok files => simp [fetchFails, hgf]

/-- C8: a fetch failure for one repository increments the error counter,
excludes that repository from the qualified output, and the batch loop is
a total function of the batch (no abort): the error count equals the
number of fetch-failing repositories, every other repository is classified
(qualified or rejected), and fetch-failing repositories never appear in
the qualified output.  In a batch of 50 with exactly one fetch failure the
run therefore completes with 49 classified and an error count of 1. -/
theorem batch_fetch_failures_isolated {α : Type} (o : SemgrepOracle)
    (getFiles : α → Except Unit (List (String × String))) (results : List α) :
    (applyFilteringLogic o getFiles results).error_count
      = (results.filter (fetchFails getFiles)).length ∧
    (applyFilteringLogic o getFiles results).qualified_count
      + (applyFilteringLogic o getFiles results).rejected_count
      = (results.filter (fun r => !(fetchFails getFiles r))).length ∧
    (applyFilteringLogic o getFiles results).filtered_results
      = results.filter (repoQualifies o getFiles) ∧
    (∀ r ∈ (applyFilteringLogic o getFiles results).filtered_results,
      fetchFails getFiles r = false) := by
  have hch := filterStep_foldl_characterization o getFiles results ⟨[], 0, 0, 0⟩
  unfold applyFilteringLogic
  rw [hch]
  refine ⟨by simp, ?_, by simp, ?_⟩
  · simpa using qual_rej_partition o getFiles results
  · intro r hr
    simp only [List.nil_append] at hr
    exact repoQualifies_not_fails o getFiles r (List.mem_filter.mp hr).2

theorem batch_fetch_failures_isolated_witness :
    (applyFilteringLogic noSemgrep demoGetFiles (List.range 50)).error_count = 1 ∧
    (applyFilteringLogic noSemgrep demoGetFiles (List.range 50)).qualified_count
      + (applyFilteringLogic noSemgrep demoGetFiles (List.range 50)).rejected_count
      = 49 := by
  obtain ⟨h1, h2, _, _⟩ :=
    batch_fetch_failures_isolated noSemgrep demoGetFiles (List.range 50)
  refine ⟨?_, ?_⟩
  · rw [h1]
    decide
  · rw [h2]
    decide

/-- C9 counterexample: with a nonempty provider result, page 1 and
per_page 0, the cache-missing repository search returns Python `None`,
not a list of at most one repository, refuting the claim's "regardless of
the requested per_page". -/
theorem search_repositories_per_page_zero_counterexample :
    searchRepositoriesOptimized [⟨1, 5⟩] 0 1 = none ∧
    ¬ ∃ l : List RepoItem,
        searchRepositoriesOptimized [⟨1, 5⟩] 0 1 = some l ∧ l.length ≤ 1 := by
  have h0 : searchRepositoriesOptimized [⟨1, 5⟩] 0 1 = none := by decide
  refine ⟨h0, ?_⟩
  rintro ⟨l, hl, _⟩
  rw [h0] at hl
  exact Option.noConfusion hl

/-- C9 amended: for any positive per_page, a cache-missing repository
search returns within the first loop iteration: with a nonempty provider
result it returns a list of at most one repository for page 1 and the
empty list for any page greater than 1; with an empty provider result it
returns Python `None` rather than a list. -/
theorem search_repositories_first_iteration (provider : List RepoItem)
    (per_page page : Int) (hpp : 1 ≤ per_page) :
    (provider = [] → searchRepositoriesOptimized provider per_page page = none) ∧
    (provider ≠ [] → page = 1 →
      ∃ l, searchRepositoriesOptimized provider per_page page = some l ∧
        l.length ≤ 1) ∧
    (provider ≠ [] → 1 < page →
      searchRepositoriesOptimized provider per_page page = some []) := by
  refine ⟨?_, ?_, ?_⟩
  · rintro rfl
    rfl
  · intro hne hp
    subst hp
    cases provider with
    | nil => exact absurd rfl hne
    | cons r rest =>
      refine ⟨[r], ?_, by simp⟩
      have hstart : ((1 : Int) - 1) * per_page = 0 := by ring
      simp only [searchRepositoriesOptimized, searchReposLoop, hstart]
      rw [if_neg (by omega), if_pos (by omega)]
      simp
  · intro hne hp
    cases provider with
    | nil => exact absurd rfl hne
    | cons r rest =>
      have hstart : 0 < (page - 1) * per_page :=
        mul_pos (by omega) (by omega)
      simp only [searchRepositoriesOptimized, searchReposLoop]
      rw [if_neg (by omega), if_neg (by omega)]

theorem search_repositories_first_iteration_witness :
    (([⟨1, 5⟩] : List RepoItem) = [] →
      searchRepositoriesOptimized [⟨1, 5⟩] 100 1 = none) ∧
    (([⟨1, 5⟩] : List RepoItem) ≠ [] → (1 : Int) = 1 →
      ∃ l, searchRepositoriesOptimized [⟨1, 5⟩] 100 1 = some l ∧
        l.length ≤ 1) ∧
    (([⟨1, 5⟩] : List RepoItem) ≠ [] → (1 : Int) < 1 →
      searchRepositoriesOptimized [⟨1, 5⟩] 100 1 = some []) :=
  search_repositories_first_iteration [⟨1, 5⟩] 100 1 (by decide)

end PhpDyn
